import Mathlib

/-!
Shallow embedding of the Textsy real-time messaging coordinator
(`backend/src/services/socketService.js`, the `Chat`/`Message` Mongoose
models, and the REST message routes), together with proofs about the
behaviour the specification ascribes to it.

Identifiers (Mongo ObjectIds), socket ids and timestamps are modelled as
natural numbers; Mongoose `Map` fields become association lists.
-/

namespace Textsy

abbrev UserId := Nat
abbrev ChatId := Nat
abbrev MsgId := Nat
abbrev ConnId := Nat
abbrev Time := Nat

/-- One entry of `messageSchema.readBy`: a user plus the `readAt` date. -/
structure ReadEntry where
  user : UserId
  readAt : Time
deriving DecidableEq, Repr

/-- One entry of `messageSchema.reactions`. -/
structure Reaction where
  user : UserId
  emoji : String
  reactedAt : Time
deriving DecidableEq, Repr

/-- A persisted `Message` document (the fields the coordinator touches). -/
structure Message where
  id : MsgId
  chatId : ChatId
  sender : UserId
  content : String
  isRead : Bool
  readBy : List ReadEntry
  reactions : List Reaction
deriving DecidableEq, Repr

/-- Association-list lookup with default, modelling `map.get(k) || d`. -/
def assocGet {α : Type} (d : α) : List (Nat × α) → Nat → α
  | [], _ => d
  | (k, v) :: rest, u => if k == u then v else assocGet d rest u

/-- Association-list update, modelling `map.set(k, v)` (keys are unique). -/
def assocSet {α : Type} : List (Nat × α) → Nat → α → List (Nat × α)
  | [], k, v => [(k, v)]
  | (k', v') :: rest, k, v =>
    if k' == k then (k, v) :: rest else (k', v') :: assocSet rest k v

/-- Association-list removal, modelling `map.delete(k)`. -/
def assocDel {α : Type} : List (Nat × α) → Nat → List (Nat × α)
  | [], _ => []
  | (k', v') :: rest, k =>
    if k' == k then assocDel rest k else (k', v') :: assocDel rest k

/-- Key-membership test, modelling `map.has(k)`. -/
def assocHas {α : Type} (m : List (Nat × α)) (k : Nat) : Bool :=
  m.any (fun p => p.1 == k)

/-- A persisted `Chat` document (the fields the coordinator touches).
`unreadCounts` is the Mongoose `Map` of per-user unread counters. -/
structure Chat where
  id : ChatId
  participants : List UserId
  lastMessage : Option MsgId
  unreadCounts : List (UserId × Nat)
deriving DecidableEq, Repr

/-- `chatSchema.methods.updateUnreadCount`: sets the user's counter to
`Math.max(0, current + increment)` where `current` defaults to 0. -/
def Chat.updateUnreadCount (c : Chat) (userId : UserId) (increment : Int) : Chat :=
  let currentCount := assocGet 0 c.unreadCounts userId
  { c with unreadCounts :=
      assocSet c.unreadCounts userId (max 0 ((currentCount : Int) + increment)).toNat }

/-- `chatSchema.methods.resetUnreadCount`: sets the user's counter to 0. -/
def Chat.resetUnreadCount (c : Chat) (userId : UserId) : Chat :=
  { c with unreadCounts := assocSet c.unreadCounts userId 0 }

/-- Replace the first list element satisfying `p` (JavaScript `find` followed
by an in-place mutation of the found element). -/
def updFirst {α : Type} (p : α → Bool) (f : α → α) : List α → List α
  | [] => []
  | x :: xs => if p x then f x :: xs else x :: updFirst p f xs

/-- `messageSchema.methods.addReaction`: if the user already has a reaction
the first such entry's emoji and date are overwritten, otherwise a new entry
is pushed. -/
def Message.addReaction (m : Message) (userId : UserId) (emoji : String) (now : Time) :
    Message :=
  if m.reactions.any (fun r => r.user == userId) then
    { m with reactions :=
        (updFirst (fun r => r.user == userId)
          (fun r => { r with emoji := emoji, reactedAt := now }) m.reactions) }
  else
    { m with reactions := m.reactions ++ [{ user := userId, emoji := emoji, reactedAt := now }] }

/-- `messageSchema.methods.removeReaction`: drops all entries of the user. -/
def Message.removeReaction (m : Message) (userId : UserId) : Message :=
  { m with reactions := m.reactions.filter (fun r => !(r.user == userId)) }

/-- A persisted `User` document; the user schema has `isOnline` and
`lastSeen` fields and no custom-status field. -/
structure UserDoc where
  id : UserId
  isOnline : Bool
  lastSeen : Time
deriving DecidableEq, Repr

/-- Server-to-client events emitted by the socket handlers. -/
inductive Event where
  | newMessage (msg : Message) (chatId : ChatId)
  | messageDelivered (messageId : MsgId) (chatId : ChatId)
  | userJoinedChat (userId : UserId) (chatId : ChatId)
  | userLeftChat (userId : UserId) (chatId : ChatId)
  | messagesRead (userId : UserId) (chatId : ChatId) (messageIds : List MsgId)
  | messageReaction (messageId : MsgId) (userId : UserId) (emoji : String) (chatId : ChatId)
  | userStatusUpdate (userId : UserId) (status : String) (customStatus : Option String)
  | userDisconnected (userId : UserId)
  | errorMsg (message : String)
deriving DecidableEq, Repr

/-- The whole server-side state: the three persisted collections plus the
process-local maps `connectedUsers`, `userSockets`, `userChats` and the
socket.io room membership (room `chat:c` keyed by `c`). -/
structure ServerState where
  users : List UserDoc
  chats : List Chat
  messages : List Message
  nextMsgId : MsgId
  connectedUsers : List (UserId × ConnId)
  userSockets : List (ConnId × UserId)
  userChats : List (UserId × List ChatId)
  rooms : List (ChatId × List ConnId)
deriving DecidableEq, Repr

/-- `Chat.findById` on the chats collection (ids are a unique key). -/
def findChat (s : ServerState) (chatId : ChatId) : Option Chat :=
  s.chats.find? (fun c => c.id == chatId)

/-- `Message.findById` on the messages collection. -/
def findMessage (s : ServerState) (messageId : MsgId) : Option Message :=
  s.messages.find? (fun m => m.id == messageId)

/-- The connections currently in room `chat:chatId`. -/
def roomMembers (s : ServerState) (chatId : ChatId) : List ConnId :=
  assocGet [] s.rooms chatId

/-- `socket.join` for a chat room (idempotent set-add). -/
def roomJoin (rooms : List (ChatId × List ConnId)) (chatId : ChatId) (conn : ConnId) :
    List (ChatId × List ConnId) :=
  let ms := assocGet [] rooms chatId
  assocSet rooms chatId (if conn ∈ ms then ms else ms ++ [conn])

/-- `socket.leave` for a chat room. -/
def roomLeave (rooms : List (ChatId × List ConnId)) (chatId : ChatId) (conn : ConnId) :
    List (ChatId × List ConnId) :=
  assocSet rooms chatId ((assocGet [] rooms chatId).filter (fun c => c != conn))

abbrev Emits := List (ConnId × Event)

/-- The `join-chat` handler: `NotFound` and membership checks, then room
join, `userChats` bookkeeping and a `user-joined-chat` notification to the
other room members (`socket.to` excludes the emitting socket). -/
def joinChat (s : ServerState) (conn : ConnId) (userId : UserId) (chatId : ChatId) :
    ServerState × Emits :=
  match findChat s chatId with
  | none => (s, [(conn, .errorMsg "Chat not found")])
  | some chat =>
    if userId ∈ chat.participants then
      let s' := { s with
        rooms := roomJoin s.rooms chatId conn,
        userChats :=
          let cur := assocGet [] s.userChats userId
          assocSet s.userChats userId (if chatId ∈ cur then cur else cur ++ [chatId]) }
      (s', ((roomMembers s' chatId).filter (fun c => c != conn)).map
            (fun c => (c, Event.userJoinedChat userId chatId)))
    else
      (s, [(conn, .errorMsg "Access denied to this chat")])

/-- The `leave-chat` handler: unconditional room leave, optional-chained
`userChats` cleanup, and a `user-left-chat` notification to the remaining
room members; there is no failure path. -/
def leaveChat (s : ServerState) (conn : ConnId) (userId : UserId) (chatId : ChatId) :
    ServerState × Emits :=
  let s' := { s with
    rooms := roomLeave s.rooms chatId conn,
    userChats :=
      if assocHas s.userChats userId then
        assocSet s.userChats userId
          ((assocGet [] s.userChats userId).filter (fun c => c != chatId))
      else s.userChats }
  (s', ((roomMembers s' chatId).filter (fun c => c != conn)).map
        (fun c => (c, Event.userLeftChat userId chatId)))

/-- `messageSchema.content` has `maxlength: 1000`. -/
def maxContentLength : Nat := 1000

/-- JavaScript `String.prototype.trim`: strip leading and trailing
whitespace (written over the character list so that it evaluates). -/
def trimStr (s : String) : String :=
  ⟨((s.data.dropWhile Char.isWhitespace).reverse.dropWhile Char.isWhitespace).reverse⟩

/-- Mongoose stores `content` trimmed (`trim: true`) and the save fails
validation when the trimmed content is empty (`required`) or longer than
`maxlength`. -/
def contentValid (content : String) : Bool :=
  !(trimStr content == "") && (trimStr content).length ≤ maxContentLength

/-- The message document built and saved by the `send-message` handler. -/
def mkMessage (s : ServerState) (userId : UserId) (chatId : ChatId) (content : String) :
    Message :=
  { id := s.nextMsgId, chatId := chatId, sender := userId, content := trimStr content,
    isRead := false, readBy := [], reactions := [] }

/-- One step of the `chat.participants.forEach` loop of the send handlers:
skip the sender, bump everyone else by one. -/
def bumpStep (userId : UserId) (ch : Chat) (p : UserId) : Chat :=
  if p == userId then ch else ch.updateUnreadCount p 1

/-- What the send handlers do to the chat document: set `lastMessage`, then
run `updateUnreadCount(participant, 1)` for every participant other than the
sender. -/
def bumpUnreads (userId : UserId) (msgId : MsgId) (c : Chat) : Chat :=
  c.participants.foldl (bumpStep userId) { c with lastMessage := some msgId }

/-- The `send-message` handler: membership check, schema-validated save,
`lastMessage` update, unread increments for the other participants, room
broadcast of `new-message` (`io.to`, so the sender's socket is included when
it is in the room) and a `message-delivered` acknowledgment — carrying only
the message id and chat id — to the sender's socket. -/
def sendMessage (s : ServerState) (conn : ConnId) (userId : UserId) (chatId : ChatId)
    (content : String) : ServerState × Emits :=
  match findChat s chatId with
  | none => (s, [(conn, .errorMsg "Access denied to this chat")])
  | some chat =>
    if userId ∈ chat.participants then
      if contentValid content then
        let msg := mkMessage s userId chatId content
        let s' := { s with
          messages := s.messages ++ [msg],
          nextMsgId := s.nextMsgId + 1,
          chats := s.chats.map (fun c =>
            if c.id == chatId then bumpUnreads userId msg.id c else c) }
        (s', (roomMembers s chatId).map (fun c => (c, Event.newMessage msg chatId))
              ++ [(conn, Event.messageDelivered msg.id chatId)])
      else
        (s, [(conn, .errorMsg "Failed to send message")])
    else
      (s, [(conn, .errorMsg "Access denied to this chat")])

/-- `$addToSet` of a `readBy` subdocument plus `$set` of `isRead`: the pair
is appended only when that exact pair is not yet present. -/
def addToSetReadBy (m : Message) (userId : UserId) (now : Time) : Message :=
  if ({ user := userId, readAt := now } : ReadEntry) ∈ m.readBy then
    { m with isRead := true }
  else
    { m with isRead := true,
             readBy := m.readBy ++ [{ user := userId, readAt := now }] }

/-- The `mark-read` handler: a non-participant (or missing chat) is silently
ignored; otherwise `Message.updateMany` adds the reader to `readBy` of every
listed message of this chat (the filter has no sender condition), the
caller's unread counter is reset to 0, and `messages-read` goes to the other
room members. -/
def markRead (s : ServerState) (conn : ConnId) (userId : UserId) (chatId : ChatId)
    (messageIds : List MsgId) (now : Time) : ServerState × Emits :=
  match findChat s chatId with
  | none => (s, [])
  | some chat =>
    if userId ∈ chat.participants then
      let s' := { s with
        messages := s.messages.map (fun m =>
          if m.id ∈ messageIds ∧ m.chatId = chatId then
            addToSetReadBy m userId now
          else m),
        chats := s.chats.map (fun c =>
          if c.id == chatId then c.resetUnreadCount userId else c) }
      (s', ((roomMembers s chatId).filter (fun c => c != conn)).map
            (fun c => (c, Event.messagesRead userId chatId messageIds)))
    else
      (s, [])

/-- The `react-to-message` handler: `NotFound` on a missing message,
membership check against the message's parent chat, `addReaction` on the
found document, and a `message-reaction` broadcast to the chat room. -/
def reactToMessage (s : ServerState) (conn : ConnId) (userId : UserId)
    (messageId : MsgId) (emoji : String) (now : Time) : ServerState × Emits :=
  match findMessage s messageId with
  | none => (s, [(conn, .errorMsg "Message not found")])
  | some msg =>
    match findChat s msg.chatId with
    | none => (s, [(conn, .errorMsg "Access denied to this chat")])
    | some chat =>
      if userId ∈ chat.participants then
        let s' := { s with
          messages := updFirst (fun m => m.id == messageId)
            (fun m => m.addReaction userId emoji now) s.messages }
        (s', (roomMembers s msg.chatId).map
              (fun c => (c, Event.messageReaction messageId userId emoji msg.chatId)))
      else
        (s, [(conn, .errorMsg "Access denied to this chat")])

/-- `User.findByIdAndUpdate` limited to the fields the handlers write. -/
def updateUserOnlineStatus (users : List UserDoc) (userId : UserId) (isOnline : Bool)
    (now : Time) : List UserDoc :=
  users.map (fun d =>
    if d.id == userId then { d with isOnline := isOnline, lastSeen := now } else d)

/-- The `update-status` handler: persists `isOnline` (from the string
status) and `lastSeen` — the user schema has no custom-status field — then
`socket.broadcast.emit`s `user-status-update` to every connected socket
except the requester's. -/
def updateStatus (s : ServerState) (conn : ConnId) (userId : UserId) (status : String)
    (customStatus : Option String) (now : Time) : ServerState × Emits :=
  let s' := { s with users := updateUserOnlineStatus s.users userId (status == "online") now }
  (s', ((s.userSockets.map Prod.fst).filter (fun c => c != conn)).map
        (fun c => (c, Event.userStatusUpdate userId status customStatus)))

/-- The connection handler: stores the user in the three process maps
(`connectedUsers` keeps a single socket id per user) and persists the user
as online. -/
def connectSocket (s : ServerState) (conn : ConnId) (userId : UserId) (now : Time) :
    ServerState :=
  { s with
    connectedUsers := assocSet s.connectedUsers userId conn,
    userSockets := assocSet s.userSockets conn userId,
    userChats := assocSet s.userChats userId [],
    users := updateUserOnlineStatus s.users userId true now }

/-- The `disconnect` handler: removes the user's entries from all three maps
(whatever other sockets the user still has), persists the user as offline,
and broadcasts `user-disconnected` to every other socket; socket.io also
drops the socket from all rooms. -/
def disconnectSocket (s : ServerState) (conn : ConnId) (userId : UserId) (now : Time) :
    ServerState × Emits :=
  ({ s with
      connectedUsers := assocDel s.connectedUsers userId,
      userSockets := assocDel s.userSockets conn,
      userChats := assocDel s.userChats userId,
      rooms := s.rooms.map (fun p => (p.1, p.2.filter (fun c => c != conn))),
      users := updateUserOnlineStatus s.users userId false now },
   ((s.userSockets.map Prod.fst).filter (fun c => c != conn)).map
     (fun c => (c, Event.userDisconnected userId)))

/-- `isUserOnline`: presence is `connectedUsers.has(userId)`. -/
def isUserOnline (s : ServerState) (userId : UserId) : Bool :=
  assocHas s.connectedUsers userId

/-- `connectedUsers.get(userId)`: the single socket id stored for a user. -/
def connIdOf (s : ServerState) (userId : UserId) : Option ConnId :=
  (s.connectedUsers.find? (fun p => p.1 == userId)).map (fun p => p.2)

/-- Outcome of a REST route: an HTTP status plus error payload if any. -/
inductive RestResult where
  | ok (code : Nat)
  | err (code : Nat) (message : String)
deriving DecidableEq, Repr

/-- REST `POST /chat/:chatId` (messages router): the `checkChatParticipant`
middleware, explicit content validation (empty test on the trimmed content,
length test on the raw content), then the same persistence steps as the
socket handler. -/
def restSendMessage (s : ServerState) (userId : UserId) (chatId : ChatId)
    (content : String) : ServerState × RestResult :=
  match findChat s chatId with
  | none => (s, .err 404 "Chat not found")
  | some chat =>
    if userId ∈ chat.participants then
      if trimStr content == "" then
        (s, .err 400 "Message content is required")
      else if maxContentLength < content.length then
        (s, .err 400 "Message too long")
      else
        let msg := mkMessage s userId chatId content
        ({ s with
            messages := s.messages ++ [msg],
            nextMsgId := s.nextMsgId + 1,
            chats := s.chats.map (fun c =>
              if c.id == chatId then bumpUnreads userId msg.id c else c) },
         .ok 201)
    else
      (s, .err 403 "Access denied. You are not a participant in this chat.")

/-- REST `POST /chat/:chatId/read`: like the socket `mark-read` but the
`updateMany` filter additionally excludes the caller's own messages
(`sender: $ne userId`), and an empty id list is a 400 error. -/
def restMarkRead (s : ServerState) (userId : UserId) (chatId : ChatId)
    (messageIds : List MsgId) (now : Time) : ServerState × RestResult :=
  match findChat s chatId with
  | none => (s, .err 404 "Chat not found")
  | some chat =>
    if userId ∈ chat.participants then
      if messageIds.isEmpty then
        (s, .err 400 "Message IDs are required")
      else
        ({ s with
            messages := s.messages.map (fun m =>
              if m.id ∈ messageIds ∧ m.chatId = chatId ∧ m.sender ≠ userId then
                addToSetReadBy m userId now
              else m),
            chats := s.chats.map (fun c =>
              if c.id == chatId then c.resetUnreadCount userId else c) },
         .ok 200)
    else
      (s, .err 403 "Access denied. You are not a participant in this chat.")

/-- Has this user read the message, i.e. does some `readBy` entry name them. -/
def hasRead (m : Message) (userId : UserId) : Bool :=
  m.readBy.any (fun e => e.user == userId)

/-- The number of messages in a list that belong to the chat, have a
different sender and are unread by `u`. -/
def msgsUnread (msgs : List Message) (chatId : ChatId) (u : UserId) : Nat :=
  (msgs.filter (fun m =>
    m.chatId == chatId && !(m.sender == u) && !(hasRead m u))).length

/-- The specification's unread number: messages of the chat whose sender is
not `u` and whose `readBy` does not contain `u`. -/
def countUnread (s : ServerState) (chatId : ChatId) (u : UserId) : Nat :=
  msgsUnread s.messages chatId u

/-- The send / mark-read operations of a run of the coordinator. -/
inductive Op where
  | send (conn : ConnId) (userId : UserId) (chatId : ChatId) (content : String)
  | mark (conn : ConnId) (userId : UserId) (chatId : ChatId)
      (messageIds : List MsgId) (now : Time)
deriving Repr

/-- Apply one operation's state transition. -/
def applyOp (s : ServerState) : Op → ServerState
  | .send conn u c content => (sendMessage s conn u c content).1
  | .mark conn u c ids now => (markRead s conn u c ids now).1

/-- Apply a finite sequence of operations. -/
def applyOps (s : ServerState) : List Op → ServerState
  | [] => s
  | op :: rest => applyOps (applyOp s op) rest

/-- The quiescent unread-count invariant of the specification. -/
def UnreadInv (s : ServerState) : Prop :=
  ∀ c ∈ s.chats, ∀ u ∈ c.participants,
    assocGet 0 c.unreadCounts u = countUnread s c.id u

/-- Participant lists are duplicate-free (they model sets). -/
def WFChats (s : ServerState) : Prop :=
  ∀ c ∈ s.chats, c.participants.Nodup

/-- A mark-read operation is a full batch in state `s` when its id list
covers every message of the chat still unread by the caller. -/
def FullBatch (s : ServerState) : Op → Prop
  | .send _ _ _ _ => True
  | .mark _ u c ids _ =>
    ∀ m ∈ s.messages, m.chatId = c → m.sender ≠ u → hasRead m u = false →
      m.id ∈ ids

/-- Every mark-read of the run is a full batch at its application point. -/
def FullBatches : ServerState → List Op → Prop
  | _, [] => True
  | s, op :: rest => FullBatch s op ∧ FullBatches (applyOp s op) rest

instance decUnreadInv (s : ServerState) : Decidable (UnreadInv s) := by
  unfold UnreadInv; infer_instance

instance decWFChats (s : ServerState) : Decidable (WFChats s) := by
  unfold WFChats; infer_instance

instance decFullBatch (s : ServerState) (op : Op) : Decidable (FullBatch s op) := by
  cases op <;> simp only [FullBatch] <;> infer_instance

instance decFullBatches : (s : ServerState) → (ops : List Op) → Decidable (FullBatches s ops)
  | _, [] => isTrue trivial
  | s, op :: rest =>
    have : Decidable (FullBatches (applyOp s op) rest) := decFullBatches _ rest
    by unfold FullBatches; infer_instance

/-- Is this event the `error` event. -/
def isErrorEvent (e : Event) : Bool :=
  match e with
  | .errorMsg _ => true
  | _ => false

/-- Does this event carry a full message document (only `new-message` does;
the `message-delivered` acknowledgment carries just the ids). -/
def carriesFullMessage (e : Event) : Bool :=
  match e with
  | .newMessage _ _ => true
  | _ => false

/-- The one-reaction-per-user invariant of a message: no two reaction
entries name the same user. -/
def oneReactionPerUser (m : Message) : Prop :=
  (m.reactions.map (fun r => r.user)).Nodup

instance decOneReactionPerUser (m : Message) : Decidable (oneReactionPerUser m) := by
  unfold oneReactionPerUser; infer_instance

/-- A two-participant chat used by the concrete scenarios. -/
def exChat : Chat :=
  { id := 0, participants := [0, 1], lastMessage := none, unreadCounts := [] }

/-- Scenario state: chat 0 between users 0 and 1; user 0 is connected on
socket 10 but has not joined the chat room. -/
def exState : ServerState :=
  { users := [], chats := [exChat], messages := [], nextMsgId := 0,
    connectedUsers := [(0, 10)], userSockets := [(10, 0)], userChats := [(0, [])],
    rooms := [] }

/-- A chat whose only participant is user 1. -/
def exChatOnly1 : Chat :=
  { id := 0, participants := [1], lastMessage := none, unreadCounts := [] }

/-- A message of chat 0 sent by user 1. -/
def exMsgFrom1 : Message :=
  { id := 0, chatId := 0, sender := 1, content := "hello", isRead := false,
    readBy := [], reactions := [] }

/-- Scenario state for authorization checks: user 0 (socket 10) is not a
participant of chat 0; message 0 of chat 0 was sent by user 1. -/
def exStateDenied : ServerState :=
  { users := [], chats := [exChatOnly1], messages := [exMsgFrom1], nextMsgId := 1,
    connectedUsers := [(0, 10)], userSockets := [(10, 0)], userChats := [(0, [])],
    rooms := [] }

/-- Message 5 of chat 0 sent by user 0, not yet read by anyone. -/
def exMsgOwn : Message :=
  { id := 5, chatId := 0, sender := 0, content := "mine", isRead := false,
    readBy := [], reactions := [] }

/-- Scenario state for mark-read: chat 0 between users 0 and 1 holds
message 5 sent by user 0 (the caller's own message), not yet read. -/
def exStateOwnMsg : ServerState :=
  { users := [], chats := [exChat], messages := [exMsgOwn], nextMsgId := 6,
    connectedUsers := [(0, 10)], userSockets := [(10, 0)], userChats := [(0, [])],
    rooms := [] }

/-- User 7 persisted as offline. -/
def exUser7 : UserDoc := { id := 7, isOnline := false, lastSeen := 0 }

/-- Scenario state for presence: user 7 is persisted offline; nobody is
connected yet. -/
def exStatePresence : ServerState :=
  { users := [exUser7], chats := [], messages := [], nextMsgId := 0,
    connectedUsers := [], userSockets := [], userChats := [], rooms := [] }

/-- Scenario state for status updates: users 7 and 8 are connected on
sockets 10 and 11. -/
def exStateStatus : ServerState :=
  { users := [exUser7], chats := [], messages := [], nextMsgId := 0,
    connectedUsers := [(7, 10), (8, 11)], userSockets := [(10, 7), (11, 8)],
    userChats := [(7, []), (8, [])], rooms := [] }

/-- A message with no reactions yet, for the reaction scenarios. -/
def exMsgBare : Message :=
  { id := 3, chatId := 0, sender := 1, content := "hey", isRead := false,
    readBy := [], reactions := [] }

/-- Scenario state: chat 0 between users 0 and 1, sockets 10 and 11 both in
the chat room, user 0 on socket 10. -/
def exStateRoom : ServerState :=
  { users := [], chats := [exChat], messages := [], nextMsgId := 0,
    connectedUsers := [(0, 10), (1, 11)], userSockets := [(10, 0), (11, 1)],
    userChats := [(0, [0]), (1, [0])], rooms := [(0, [10, 11])] }

end Textsy

namespace Textsy

/-- Two connections of user 7 (sockets 10 and 11), then socket 10 drops. -/
def exTwoDevices : ServerState :=
  (disconnectSocket (connectSocket (connectSocket exStatePresence 10 7 0) 11 7 1) 10 7 2).1

/-- A run where user 0 sends twice and user 1 marks only the first message
read (a partial batch). -/
def exOpsPartialRead : List Op :=
  [Op.send 10 0 0 "hi", Op.send 10 0 0 "yo", Op.mark 11 1 0 [0] 3]

/-- A run where user 0 sends once and user 1 marks everything read. -/
def exOpsFullRead : List Op :=
  [Op.send 10 0 0 "hi", Op.mark 11 1 0 [0] 3]

theorem assocGet_assocSet {α : Type} (d : α) (m : List (Nat × α)) (k k' : Nat) (v : α) :
    assocGet d (assocSet m k v) k' = if k' = k then v else assocGet d m k' := by
  induction m with
  | nil =>
    by_cases h : k' = k
    · subst h; simp [assocSet, assocGet]
    · simp [assocSet, assocGet, h, Ne.symm h]
  | cons p rest ih =>
    obtain ⟨a, b⟩ := p
    by_cases h0 : a = k
    · subst h0
      by_cases h : k' = a
      · subst h; simp [assocSet, assocGet]
      · simp [assocSet, assocGet, h, Ne.symm h]
    · by_cases h : k' = a
      · subst h
        simp [assocSet, assocGet, fun hh : k' = k => h0 (hh ▸ rfl), h0, ih]
      · simp [assocSet, assocGet, h0, h, Ne.symm h, ih]

theorem assocSet_assocSet {α : Type} (m : List (Nat × α)) (k : Nat) (v w : α) :
    assocSet (assocSet m k v) k w = assocSet m k w := by
  induction m with
  | nil => simp [assocSet]
  | cons p rest ih =>
    obtain ⟨a, b⟩ := p
    by_cases h : a = k
    · subst h; simp [assocSet]
    · simp [assocSet, h, ih]

theorem assocHas_assocSet {α : Type} (m : List (Nat × α)) (k : Nat) (v : α) :
    assocHas (assocSet m k v) k = true := by
  induction m with
  | nil => simp [assocSet, assocHas]
  | cons p rest ih =>
    obtain ⟨a, b⟩ := p
    by_cases h : a = k
    · subst h; simp [assocSet, assocHas]
    · simpa [assocSet, assocHas, h] using ih

theorem assocHas_assocDel {α : Type} (m : List (Nat × α)) (k : Nat) :
    assocHas (assocDel m k) k = false := by
  induction m with
  | nil => simp [assocDel, assocHas]
  | cons p rest ih =>
    obtain ⟨a, b⟩ := p
    by_cases h : a = k
    · simpa [assocDel, assocHas, h] using ih
    · simpa [assocDel, assocHas, h] using ih

theorem find?_assocSet {α : Type} (m : List (Nat × α)) (k : Nat) (v : α) :
    (assocSet m k v).find? (fun p => p.1 == k) = some (k, v) := by
  induction m with
  | nil => simp [assocSet]
  | cons p rest ih =>
    obtain ⟨a, b⟩ := p
    by_cases h : a = k
    · subst h; simp [assocSet]
    · simpa [assocSet, h] using ih

theorem mem_updateUserOnlineStatus (l : List UserDoc) (u : UserId) (b : Bool) (t : Time) :
    ∀ d ∈ updateUserOnlineStatus l u b t, d.id = u → d.isOnline = b ∧ d.lastSeen = t := by
  intro d hd hid
  simp only [updateUserOnlineStatus, List.mem_map] at hd
  obtain ⟨d0, _, rfl⟩ := hd
  by_cases h : d0.id = u
  · simp [h]
  · rw [if_neg (by simp [h])] at hid
    exact absurd hid h

end Textsy

namespace Textsy

theorem map_fst_map_pair {β : Type} (ev : β) (l : List ConnId) :
    (l.map (fun c => (c, ev))).map Prod.fst = l := by
  induction l with
  | nil => rfl
  | cons a rest ih => simp [ih]

theorem mem_map_pair_snd {β : Type} (ev : β) (l : List ConnId) :
    ∀ p ∈ l.map (fun c => (c, ev)), p.2 = ev := by
  intro p hp
  rw [List.mem_map] at hp
  obtain ⟨c, _, rfl⟩ := hp
  rfl

/-- C10: the `leave-chat` handler never fails at the public interface: for
every connection and every chat id — including chats the connection never
joined and chat ids that do not exist — it completes without emitting any
error to the caller and broadcasts a `user-left-chat` notification carrying
the user id and chat id to exactly the remaining subscribers of that chat
room. -/
theorem leave_chat_total (s : ServerState) (conn : ConnId) (userId : UserId)
    (chatId : ChatId) :
    (leaveChat s conn userId chatId).2 =
      (roomMembers (leaveChat s conn userId chatId).1 chatId).map
        (fun c => (c, Event.userLeftChat userId chatId)) ∧
    (leaveChat s conn userId chatId).2.all (fun p => !(isErrorEvent p.2)) = true := by
  have hrooms : roomMembers (leaveChat s conn userId chatId).1 chatId =
      (assocGet [] s.rooms chatId).filter (fun c => c != conn) := by
    show assocGet [] (roomLeave s.rooms chatId conn) chatId = _
    unfold roomLeave
    rw [assocGet_assocSet]
    simp
  have hev : (leaveChat s conn userId chatId).2 =
      ((roomMembers (leaveChat s conn userId chatId).1 chatId).filter
        (fun c => c != conn)).map (fun c => (c, Event.userLeftChat userId chatId)) := rfl
  constructor
  · rw [hev]
    congr 1
    rw [hrooms]
    refine List.filter_eq_self.mpr ?_
    intro a ha
    exact (List.mem_filter.mp ha).2
  · rw [hev, List.all_eq_true]
    intro p hp
    have := mem_map_pair_snd _ _ p hp
    rw [this]
    rfl

/-- C9 (amended): the `update-status` handler persists only the boolean
online flag (derived from the string status) and `lastSeen` — the user
schema has no custom-status field, so the custom status is not persisted —
and then emits `user-status-update` carrying the user id, the raw status
string and the custom status to every connected socket except the
requester's own. -/
theorem update_status_behavior (s : ServerState) (conn : ConnId) (userId : UserId)
    (status : String) (customStatus : Option String) (now : Time) :
    ((updateStatus s conn userId status customStatus now).1.chats = s.chats) ∧
    ((updateStatus s conn userId status customStatus now).1.messages = s.messages) ∧
    (∀ d ∈ (updateStatus s conn userId status customStatus now).1.users,
       d.id = userId → d.isOnline = (status == "online") ∧ d.lastSeen = now) ∧
    ((updateStatus s conn userId status customStatus now).2.map Prod.fst =
       (s.userSockets.map Prod.fst).filter (fun c => c != conn)) ∧
    (∀ p ∈ (updateStatus s conn userId status customStatus now).2,
       p.2 = Event.userStatusUpdate userId status customStatus) := by
  refine ⟨rfl, rfl, ?_, ?_, ?_⟩
  · exact mem_updateUserOnlineStatus s.users userId (status == "online") now
  · exact map_fst_map_pair _ _
  · exact mem_map_pair_snd _ _

/-- C9 witness: concrete instance of the amended status-update theorem. -/
theorem update_status_behavior_witness :
    ({ id := 7, isOnline := true, lastSeen := 5 } : UserDoc).isOnline =
        (("online" : String) == "online") ∧
    ({ id := 7, isOnline := true, lastSeen := 5 } : UserDoc).lastSeen = 5 :=
  (update_status_behavior exStateStatus 10 7 "online" (some "busy") 5).2.2.1
    { id := 7, isOnline := true, lastSeen := 5 } (by decide) (by decide)

/-- C9 counterexample: the persisted state after `update-status` is
identical whether or not a custom status is supplied (so the custom status
is not persisted, contrary to the claim), and the requester's own socket
receives no broadcast (so the event does not go to all connected clients). -/
theorem custom_status_not_persisted :
    (updateStatus exStateStatus 10 7 "online" (some "busy") 5).1 =
      (updateStatus exStateStatus 10 7 "online" none 5).1 ∧
    (updateStatus exStateStatus 10 7 "online" (some "busy") 5).2.all
      (fun p => p.1 != 10) = true := by
  decide

/-- C8 (amended): the registry keeps at most one socket per user
(`connectedUsers` maps the user to the most recent socket): registering any
connection stores that socket and persists the user online, and
unregistering any one of the user's sockets removes the user's registry
entry — making the user offline — and persists offline with
`lastSeen = now` regardless of how many other connections remain, while
`user-disconnected` is broadcast to the other sockets. -/
theorem presence_single_connection (s : ServerState) (conn : ConnId) (userId : UserId)
    (now : Time) :
    (connIdOf (connectSocket s conn userId now) userId = some conn) ∧
    (isUserOnline (connectSocket s conn userId now) userId = true) ∧
    (∀ d ∈ (connectSocket s conn userId now).users, d.id = userId →
        d.isOnline = true ∧ d.lastSeen = now) ∧
    (isUserOnline (disconnectSocket s conn userId now).1 userId = false) ∧
    (∀ d ∈ (disconnectSocket s conn userId now).1.users, d.id = userId →
        d.isOnline = false ∧ d.lastSeen = now) ∧
    (∀ p ∈ (disconnectSocket s conn userId now).2, p.2 = Event.userDisconnected userId) := by
  refine ⟨?_, ?_, ?_, ?_, ?_, ?_⟩
  · show ((assocSet s.connectedUsers userId conn).find? (fun p => p.1 == userId)).map _ = _
    rw [find?_assocSet]
    rfl
  · exact assocHas_assocSet s.connectedUsers userId conn
  · exact mem_updateUserOnlineStatus s.users userId true now
  · exact assocHas_assocDel s.connectedUsers userId
  · exact mem_updateUserOnlineStatus s.users userId false now
  · exact mem_map_pair_snd _ _

/-- C8 witness: concrete instance of the amended presence theorem. -/
theorem presence_single_connection_witness :
    ({ id := 7, isOnline := false, lastSeen := 2 } : UserDoc).isOnline = false ∧
    ({ id := 7, isOnline := false, lastSeen := 2 } : UserDoc).lastSeen = 2 :=
  (presence_single_connection (connectSocket (connectSocket exStatePresence 10 7 0) 11 7 1)
      10 7 2).2.2.2.2.1
    { id := 7, isOnline := false, lastSeen := 2 } (by decide) (by decide)

/-- C8 counterexample: user 7 connects on sockets 10 and 11; when socket 10
alone disconnects, socket 11 is still live (one live connection of user 7
remains in `userSockets`), yet the user is reported offline and persisted
offline — refuting that a user is online iff their set of live connections
is non-empty. -/
theorem multi_device_counterexample :
    (exTwoDevices.userSockets.filter (fun p => p.2 == 7)).length = 1 ∧
    isUserOnline exTwoDevices 7 = false ∧
    exTwoDevices.users.all (fun d => !(d.id == 7) || !d.isOnline) = true := by
  decide

end Textsy

namespace Textsy

theorem length_dropWhile_le {α : Type} (p : α → Bool) (l : List α) :
    (l.dropWhile p).length ≤ l.length := by
  induction l with
  | nil => simp
  | cons a rest ih =>
    rw [List.dropWhile_cons]
    split
    · exact le_trans ih (Nat.le_succ _)
    · simp

theorem trimStr_length_le (s : String) : (trimStr s).length ≤ s.length := by
  show (((s.data.dropWhile Char.isWhitespace).reverse.dropWhile
      Char.isWhitespace).reverse).length ≤ s.data.length
  rw [List.length_reverse]
  calc ((s.data.dropWhile Char.isWhitespace).reverse.dropWhile Char.isWhitespace).length
      ≤ (s.data.dropWhile Char.isWhitespace).reverse.length := length_dropWhile_le _ _
    _ = (s.data.dropWhile Char.isWhitespace).length := List.length_reverse _
    _ ≤ s.data.length := length_dropWhile_le _ _

/-- C4 (amended): for a connection whose user is not in the chat's
participants, `join-chat`, `send-message` and `react-to-message` emit an
access-denied error to the originating connection only and leave the state
unchanged, while `mark-read` is silently dropped with no event at all; in
no case is anything broadcast to another connection. -/
theorem nonparticipant_denied (s : ServerState) (conn : ConnId) (userId : UserId)
    (chatId : ChatId) (c : Chat) (hc : findChat s chatId = some c)
    (hnp : userId ∉ c.participants) :
    (joinChat s conn userId chatId =
        (s, [(conn, Event.errorMsg "Access denied to this chat")])) ∧
    (∀ content, sendMessage s conn userId chatId content =
        (s, [(conn, Event.errorMsg "Access denied to this chat")])) ∧
    (∀ ids now, markRead s conn userId chatId ids now = (s, [])) ∧
    (∀ mid m emoji now, findMessage s mid = some m → m.chatId = chatId →
        reactToMessage s conn userId mid emoji now =
          (s, [(conn, Event.errorMsg "Access denied to this chat")])) := by
  refine ⟨?_, ?_, ?_, ?_⟩
  · simp [joinChat, hc, hnp]
  · intro content
    simp [sendMessage, hc, hnp]
  · intro ids now
    simp [markRead, hc, hnp]
  · intro mid m emoji now hm hmc
    simp [reactToMessage, hm, hmc, hc, hnp]

/-- C4 witness: concrete instance of the amended authorization theorem. -/
theorem nonparticipant_denied_witness :
    joinChat exStateDenied 10 0 0 =
      (exStateDenied, [(10, Event.errorMsg "Access denied to this chat")]) ∧
    reactToMessage exStateDenied 10 0 0 "x" 4 =
      (exStateDenied, [(10, Event.errorMsg "Access denied to this chat")]) :=
  ⟨(nonparticipant_denied exStateDenied 10 0 0 exChatOnly1 (by decide) (by decide)).1,
   (nonparticipant_denied exStateDenied 10 0 0 exChatOnly1 (by decide) (by decide)).2.2.2
     0 exMsgFrom1 "x" 4 (by decide) (by decide)⟩

/-- C4 counterexample: user 0 is not a participant of chat 0, yet the
`mark-read` handler emits no event at all — in particular no denied error
reaches the originating connection, contrary to the claim that all four
operations report a denied error. -/
theorem markRead_silent_counterexample :
    (findChat exStateDenied 0 = some exChatOnly1) ∧
    ((0 : UserId) ∉ exChatOnly1.participants) ∧
    markRead exStateDenied 10 0 0 [0] 5 = (exStateDenied, []) := by
  decide

/-- C3: a send whose content is empty (the schema trims before validating,
so whitespace-only counts as empty) or longer than the 1000-character
maximum is rejected: the state is unchanged — no message is persisted,
nothing is broadcast to any subscriber — and the only emission is a single
error event to the sender; the REST send route likewise rejects with an
error status and persists nothing. -/
theorem send_invalid_content_rejected :
    (∀ s conn userId chatId content,
        (trimStr content = "" ∨ maxContentLength < (trimStr content).length) →
        (sendMessage s conn userId chatId content).1 = s ∧
        ∃ m, (sendMessage s conn userId chatId content).2 = [(conn, Event.errorMsg m)]) ∧
    (∀ s userId chatId content,
        (trimStr content = "" ∨ maxContentLength < (trimStr content).length) →
        (restSendMessage s userId chatId content).1 = s ∧
        ∃ code m, (restSendMessage s userId chatId content).2 = RestResult.err code m) := by
  constructor
  · intro s conn userId chatId content h
    have hcv : contentValid content = false := by
      unfold contentValid
      rcases h with h | h
      · simp [h]
      · simp [Nat.not_le.mpr h]
    have hres : ∃ m, sendMessage s conn userId chatId content =
        (s, [(conn, Event.errorMsg m)]) := by
      cases hfc : findChat s chatId with
      | none => exact ⟨"Access denied to this chat", by simp [sendMessage, hfc]⟩
      | some chat =>
        by_cases hp : userId ∈ chat.participants
        · exact ⟨"Failed to send message", by simp [sendMessage, hfc, hp, hcv]⟩
        · exact ⟨"Access denied to this chat", by simp [sendMessage, hfc, hp]⟩
    obtain ⟨m, hm⟩ := hres
    exact ⟨by rw [hm], ⟨m, by rw [hm]⟩⟩
  · intro s userId chatId content h
    have hres : ∃ code m, restSendMessage s userId chatId content =
        (s, RestResult.err code m) := by
      cases hfc : findChat s chatId with
      | none => exact ⟨404, "Chat not found", by simp [restSendMessage, hfc]⟩
      | some chat =>
        by_cases hp : userId ∈ chat.participants
        · by_cases ht : trimStr content = ""
          · exact ⟨400, "Message content is required", by simp [restSendMessage, hfc, hp, ht]⟩
          · have hlt : maxContentLength < content.length := by
              rcases h with h | h
              · exact absurd h ht
              · exact lt_of_lt_of_le h (trimStr_length_le content)
            exact ⟨400, "Message too long", by simp [restSendMessage, hfc, hp, ht, hlt]⟩
        · exact ⟨403, "Access denied. You are not a participant in this chat.",
            by simp [restSendMessage, hfc, hp]⟩
    obtain ⟨code, m, hm⟩ := hres
    exact ⟨by rw [hm], ⟨code, m, by rw [hm]⟩⟩

/-- C3 witness: the empty socket send and a whitespace-only REST send are
both rejected without persisting anything. -/
theorem send_invalid_content_rejected_witness :
    (sendMessage exState 10 0 0 "").1 = exState ∧
    (∃ m, (sendMessage exState 10 0 0 "").2 = [(10, Event.errorMsg m)]) ∧
    (restSendMessage exState 0 0 "   ").1 = exState ∧
    (∃ code m, (restSendMessage exState 0 0 "   ").2 = RestResult.err code m) :=
  ⟨(send_invalid_content_rejected.1 exState 10 0 0 "" (by decide)).1,
   (send_invalid_content_rejected.1 exState 10 0 0 "" (by decide)).2,
   (send_invalid_content_rejected.2 exState 0 0 "   " (by decide)).1,
   (send_invalid_content_rejected.2 exState 0 0 "   " (by decide)).2⟩

end Textsy

namespace Textsy

theorem length_updFirst {α : Type} (p : α → Bool) (f : α → α) (l : List α) :
    (updFirst p f l).length = l.length := by
  induction l with
  | nil => rfl
  | cons x xs ih =>
    unfold updFirst
    split
    · simp
    · simp [ih]

theorem map_updFirst {α β : Type} (p : α → Bool) (f : α → α) (g : α → β)
    (hg : ∀ x, g (f x) = g x) (l : List α) :
    (updFirst p f l).map g = l.map g := by
  induction l with
  | nil => rfl
  | cons x xs ih =>
    unfold updFirst
    split
    · simp [hg]
    · simp [ih]

theorem not_mem_users_of_any_false (u : UserId) (l : List Reaction)
    (h : l.any (fun r => r.user == u) = false) : u ∉ l.map (fun r => r.user) := by
  intro hmem
  rw [List.mem_map] at hmem
  obtain ⟨r, hr, hru⟩ := hmem
  have htrue : l.any (fun r => r.user == u) = true :=
    List.any_eq_true.mpr ⟨r, hr, by simp [hru]⟩
  rw [h] at htrue
  exact Bool.false_ne_true htrue

theorem filter_updFirst_user (u : UserId) (e : String) (t : Time) (l : List Reaction)
    (hnd : (l.map (fun r => r.user)).Nodup)
    (hany : l.any (fun r => r.user == u) = true) :
    (updFirst (fun r => r.user == u)
        (fun r => { r with emoji := e, reactedAt := t }) l).filter
      (fun r => r.user == u) = [{ user := u, emoji := e, reactedAt := t }] := by
  induction l with
  | nil => simp at hany
  | cons r rest ih =>
    rw [List.map_cons, List.nodup_cons] at hnd
    by_cases hr : r.user = u
    · have htail : rest.filter (fun r => r.user == u) = [] := by
        rw [List.filter_eq_nil_iff]
        intro a ha hpa
        apply hnd.1
        have hau : a.user = u := by simpa using hpa
        rw [hr, ← hau]
        exact List.mem_map_of_mem _ ha
      unfold updFirst
      rw [if_pos (by simp [hr])]
      rw [List.filter_cons_of_pos (by simp [hr])]
      rw [htail]
      simp [hr]
    · unfold updFirst
      rw [if_neg (by simp [hr])]
      rw [List.filter_cons_of_neg (by simp [hr])]
      exact ih hnd.2 (by simpa [hr] using hany)

theorem addReaction_one_per_user (m : Message) (u : UserId) (e : String) (t : Time)
    (h : oneReactionPerUser m) : oneReactionPerUser (m.addReaction u e t) := by
  unfold Message.addReaction
  by_cases hany : m.reactions.any (fun r => r.user == u) = true
  · rw [if_pos hany]
    show ((updFirst _ _ m.reactions).map (fun r => r.user)).Nodup
    rw [map_updFirst (fun (r : Reaction) => r.user == u)
      (fun (r : Reaction) => { r with emoji := e, reactedAt := t })
      (fun (r : Reaction) => r.user) (fun x => rfl)]
    exact h
  · rw [if_neg hany]
    show ((m.reactions ++ [({ user := u, emoji := e, reactedAt := t } : Reaction)]).map
      (fun r => r.user)).Nodup
    rw [List.map_append]
    rw [List.nodup_append]
    refine ⟨h, by simp, ?_⟩
    intro a ha hb
    simp only [List.map_cons, List.map_nil, List.mem_cons, List.not_mem_nil,
      or_false] at hb
    subst hb
    exact not_mem_users_of_any_false a m.reactions
      (Bool.eq_false_iff.mpr hany) ha

theorem addReaction_filter_eq (m : Message) (u : UserId) (e : String) (t : Time)
    (h : oneReactionPerUser m) :
    (m.addReaction u e t).reactions.filter (fun r => r.user == u) =
      [{ user := u, emoji := e, reactedAt := t }] := by
  unfold Message.addReaction
  by_cases hany : m.reactions.any (fun r => r.user == u) = true
  · rw [if_pos hany]
    exact filter_updFirst_user u e t m.reactions h hany
  · rw [if_neg hany]
    show (m.reactions ++ [({ user := u, emoji := e, reactedAt := t } : Reaction)]).filter
        (fun r => r.user == u) = _
    rw [List.filter_append]
    have h0 : m.reactions.filter (fun r => r.user == u) = [] := by
      rw [List.filter_eq_nil_iff]
      intro a ha hpa
      have : m.reactions.any (fun r => r.user == u) = true :=
        List.any_eq_true.mpr ⟨a, ha, hpa⟩
      exact hany this
    rw [h0]
    simp

/-- C6: the one-reaction-per-user invariant and the upsert behaviour of
`addReaction`: the invariant is preserved by `addReaction` and
`removeReaction` and holds for a freshly created message; when the caller
already has a reaction the entry count is unchanged and their single entry
now carries the new emoji and timestamp, otherwise exactly one entry is
appended; and reacting twice with different emojis leaves exactly one entry
for the caller, holding the latest emoji. -/
theorem reaction_upsert_one_per_user :
    (∀ (m : Message) u e t, oneReactionPerUser m →
        oneReactionPerUser (m.addReaction u e t)) ∧
    (∀ (m : Message) u, oneReactionPerUser m →
        oneReactionPerUser (m.removeReaction u)) ∧
    (∀ s userId chatId content, oneReactionPerUser (mkMessage s userId chatId content)) ∧
    (∀ (m : Message) u e t, m.reactions.any (fun r => r.user == u) = true →
        (m.addReaction u e t).reactions.length = m.reactions.length) ∧
    (∀ (m : Message) u e t, m.reactions.any (fun r => r.user == u) = false →
        (m.addReaction u e t).reactions =
          m.reactions ++ [{ user := u, emoji := e, reactedAt := t }]) ∧
    (∀ (m : Message) u e t, oneReactionPerUser m →
        (m.addReaction u e t).reactions.filter (fun r => r.user == u) =
          [{ user := u, emoji := e, reactedAt := t }]) ∧
    (∀ (m : Message) u e1 t1 e2 t2, oneReactionPerUser m →
        ((m.addReaction u e1 t1).addReaction u e2 t2).reactions.filter
          (fun r => r.user == u) = [{ user := u, emoji := e2, reactedAt := t2 }]) := by
  refine ⟨addReaction_one_per_user, ?_, ?_, ?_, ?_, addReaction_filter_eq, ?_⟩
  · intro m u h
    show ((m.reactions.filter (fun r => !(r.user == u))).map (fun r => r.user)).Nodup
    exact List.Nodup.sublist (List.Sublist.map _ (List.filter_sublist _)) h
  · intro s userId chatId content
    simp [oneReactionPerUser, mkMessage]
  · intro m u e t hany
    unfold Message.addReaction
    rw [if_pos hany]
    show (updFirst _ _ m.reactions).length = _
    exact length_updFirst _ _ _
  · intro m u e t hany
    unfold Message.addReaction
    rw [if_neg (by rw [hany]; exact Bool.false_ne_true)]
  · intro m u e1 t1 e2 t2 h
    exact addReaction_filter_eq (m.addReaction u e1 t1) u e2 t2
      (addReaction_one_per_user m u e1 t1 h)

/-- C6 witness: reacting twice on a fresh message with different emojis
leaves exactly one entry holding the latest emoji. -/
theorem reaction_upsert_one_per_user_witness :
    ((exMsgBare.addReaction 0 "a" 1).addReaction 0 "b" 2).reactions.filter
      (fun r => r.user == 0) = [{ user := 0, emoji := "b", reactedAt := 2 }] :=
  reaction_upsert_one_per_user.2.2.2.2.2.2 exMsgBare 0 "a" 1 "b" 2 (by decide)

end Textsy

namespace Textsy

theorem zip_map_snd {α : Type} (g : α → α) (l : List α) :
    ∀ p ∈ l.zip (l.map g), p.2 = g p.1 := by
  induction l with
  | nil => simp
  | cons a rest ih =>
    intro p hp
    rw [List.map_cons, List.zip_cons_cons, List.mem_cons] at hp
    rcases hp with rfl | hp
    · rfl
    · exact ih p hp

theorem hasRead_addToSetReadBy (m : Message) (u v : UserId) (t : Time) :
    hasRead (addToSetReadBy m u t) v = (hasRead m v || u == v) := by
  unfold addToSetReadBy hasRead
  split
  · rename_i hmem
    by_cases huv : u = v
    · subst huv
      have hu : m.readBy.any (fun e => e.user == u) = true :=
        List.any_eq_true.mpr ⟨_, hmem, by simp⟩
      simp [hu]
    · simp [huv]
  · simp [List.any_append]

end Textsy

namespace Textsy

/-- C5 (amended): in the socket `mark-read`, ids referencing messages of a
different chat and unlisted messages are silently left unchanged and no
error is raised, but listed messages of the chat gain the caller in their
`readBy` even when the caller is the sender (the socket filter has no
sender exclusion); only the REST read route additionally excludes the
caller's own messages. -/
theorem markRead_filter_behavior (s : ServerState) (conn : ConnId) (userId : UserId)
    (chatId : ChatId) (ids : List MsgId) (now : Time) (c : Chat)
    (hc : findChat s chatId = some c) (hp : userId ∈ c.participants) :
    (∀ q ∈ s.messages.zip (markRead s conn userId chatId ids now).1.messages,
        (¬(q.1.chatId = chatId ∧ q.1.id ∈ ids) → q.2 = q.1) ∧
        (q.1.chatId = chatId → q.1.id ∈ ids → hasRead q.2 userId = true)) ∧
    ((markRead s conn userId chatId ids now).2.all
        (fun p => !(isErrorEvent p.2)) = true) ∧
    (ids ≠ [] →
      ∀ q ∈ s.messages.zip (restMarkRead s userId chatId ids now).1.messages,
        (q.1.sender = userId → q.2 = q.1) ∧
        (¬(q.1.chatId = chatId ∧ q.1.id ∈ ids) → q.2 = q.1) ∧
        (q.1.chatId = chatId → q.1.id ∈ ids → q.1.sender ≠ userId →
            hasRead q.2 userId = true)) := by
  have hsock : (markRead s conn userId chatId ids now).1.messages =
      s.messages.map (fun m =>
        if m.id ∈ ids ∧ m.chatId = chatId then addToSetReadBy m userId now
        else m) := by
    simp only [markRead, hc, if_pos hp]
  have hev : (markRead s conn userId chatId ids now).2 =
      ((roomMembers s chatId).filter (fun c => c != conn)).map
        (fun c => (c, Event.messagesRead userId chatId ids)) := by
    simp only [markRead, hc, if_pos hp]
  refine ⟨?_, ?_, ?_⟩
  · intro q hq
    rw [hsock] at hq
    have h2 := zip_map_snd _ _ q hq
    constructor
    · intro hnot
      rw [h2, if_neg (by tauto)]
    · intro hch hm
      rw [h2, if_pos ⟨hm, hch⟩, hasRead_addToSetReadBy]
      simp
  · rw [hev, List.all_eq_true]
    intro p hp2
    have hsnd := mem_map_pair_snd _ _ p hp2
    rw [hsnd]
    rfl
  · intro hne q hq
    have hrest : (restMarkRead s userId chatId ids now).1.messages =
        s.messages.map (fun m =>
          if m.id ∈ ids ∧ m.chatId = chatId ∧ m.sender ≠ userId then
            addToSetReadBy m userId now
          else m) := by
      simp only [restMarkRead, hc, if_pos hp]
      rw [if_neg (by simp [hne])]
    rw [hrest] at hq
    have h2 := zip_map_snd _ _ q hq
    refine ⟨?_, ?_, ?_⟩
    · intro hsender
      rw [h2, if_neg (by tauto)]
    · intro hnot
      rw [h2, if_neg (by tauto)]
    · intro hch hm hs
      rw [h2, if_pos ⟨hm, hch, hs⟩, hasRead_addToSetReadBy]
      simp

/-- C5 witness: the amended theorem applied to the own-message scenario —
the socket path marks the caller's own listed message as read by them. -/
theorem markRead_filter_behavior_witness :
    hasRead (addToSetReadBy exMsgOwn 0 7) 0 = true :=
  ((markRead_filter_behavior exStateOwnMsg 10 0 0 [5] 7 exChat (by decide)
      (by decide)).1 (exMsgOwn, addToSetReadBy exMsgOwn 0 7) (by decide)).2
    (by decide) (by decide)

/-- C5 counterexample: user 0's own unread message 5 is listed in their
socket `mark-read`; afterwards the message's `readBy` contains user 0 —
the claim that the caller's own sent messages are excluded and their
`readBy` left unchanged is false for the socket handler. -/
theorem markRead_own_message_counterexample :
    hasRead exMsgOwn 0 = false ∧
    exMsgOwn.sender = 0 ∧
    (markRead exStateOwnMsg 10 0 0 [5] 7).1.messages.all
      (fun m => hasRead m 0) = true ∧
    (markRead exStateOwnMsg 10 0 0 [5] 7).1.messages.length = 1 := by
  decide

end Textsy

namespace Textsy

theorem filter_beq_length_nodup (a : ConnId) (l : List ConnId) (hnd : l.Nodup) :
    (l.filter (fun k => k == a)).length = if a ∈ l then 1 else 0 := by
  induction l with
  | nil => simp
  | cons x rest ih =>
    rw [List.nodup_cons] at hnd
    by_cases hx : x = a
    · subst hx
      rw [List.filter_cons_of_pos (by simp)]
      have h0 : (rest.filter (fun k => k == x)).length = 0 := by
        rw [List.length_eq_zero, List.filter_eq_nil_iff]
        intro b hb hpb
        have hbx : b = x := by simpa using hpb
        subst hbx
        exact hnd.1 hb
      simp [h0, List.mem_cons]
    · rw [List.filter_cons_of_neg (by simp [hx])]
      rw [ih hnd.2]
      have hax : ¬a = x := fun h => hx h.symm
      simp [List.mem_cons, hax]

/-- C2 (amended): on a successful send the persisted message is appended to
the store and broadcast to every connection currently subscribed to the
chat room — the sender's own connection included exactly when it is
subscribed — while a `message-delivered` acknowledgment carrying only the
message id and chat id (not the message) is routed to the sender; hence the
sender receives the full message exactly once if subscribed and not at all
otherwise. -/
theorem send_broadcast_and_ack (s : ServerState) (conn : ConnId) (userId : UserId)
    (chatId : ChatId) (content : String) (c : Chat)
    (hc : findChat s chatId = some c) (hp : userId ∈ c.participants)
    (hv : contentValid content = true)
    (hnd : (roomMembers s chatId).Nodup) :
    ((sendMessage s conn userId chatId content).1.messages =
        s.messages ++ [mkMessage s userId chatId content]) ∧
    ((sendMessage s conn userId chatId content).2 =
        (roomMembers s chatId).map
          (fun k => (k, Event.newMessage (mkMessage s userId chatId content) chatId))
          ++ [(conn, Event.messageDelivered s.nextMsgId chatId)]) ∧
    (((sendMessage s conn userId chatId content).2.filter
        (fun p => p.1 == conn && carriesFullMessage p.2)).length =
      if conn ∈ roomMembers s chatId then 1 else 0) := by
  have h1 : (sendMessage s conn userId chatId content).1.messages =
      s.messages ++ [mkMessage s userId chatId content] := by
    simp only [sendMessage, hc, if_pos hp, hv, if_true]
  have h2 : (sendMessage s conn userId chatId content).2 =
      (roomMembers s chatId).map
        (fun k => (k, Event.newMessage (mkMessage s userId chatId content) chatId))
        ++ [(conn, Event.messageDelivered s.nextMsgId chatId)] := by
    simp only [sendMessage, hc, if_pos hp, hv, if_true]
    rfl
  refine ⟨h1, h2, ?_⟩
  rw [h2, List.filter_append]
  have hone : ([(conn, Event.messageDelivered s.nextMsgId chatId)].filter
      (fun p => p.1 == conn && carriesFullMessage p.2)) = [] := by
    simp [carriesFullMessage]
  rw [hone, List.append_nil, List.filter_map]
  rw [List.length_map]
  have : (fun p : ConnId × Event => p.1 == conn && carriesFullMessage p.2) ∘
      (fun k => (k, Event.newMessage (mkMessage s userId chatId content) chatId)) =
      (fun k => k == conn) := by
    funext k
    simp [carriesFullMessage]
  rw [this]
  exact filter_beq_length_nodup conn (roomMembers s chatId) hnd

/-- C2 witness: with both sockets 10 and 11 subscribed, the sender's socket
receives the full message exactly once. -/
theorem send_broadcast_and_ack_witness :
    ((sendMessage exStateRoom 10 0 0 "hi").2.filter
      (fun p => p.1 == 10 && carriesFullMessage p.2)).length =
      if (10 : ConnId) ∈ roomMembers exStateRoom 0 then 1 else 0 :=
  (send_broadcast_and_ack exStateRoom 10 0 0 "hi" exChat (by decide) (by decide)
    (by decide) (by decide)).2.2

/-- C2 counterexample: user 0 sends a valid message to chat 0 while not
subscribed to the chat room; the only event routed to their socket is the
`message-delivered` acknowledgment, which does not carry the message — so
the sender does not receive their own message at all, contrary to the
claim that the acknowledgment carries the same message and the sender sees
it exactly once whether or not subscribed. -/
theorem sender_message_once_counterexample :
    ((sendMessage exState 10 0 0 "hi").2.filter
      (fun p => p.1 == 10 && carriesFullMessage p.2)).length = 0 ∧
    (sendMessage exState 10 0 0 "hi").2 = [(10, Event.messageDelivered 0 0)] := by
  decide

end Textsy

namespace Textsy

theorem addToSetReadBy_id (m : Message) (u : UserId) (t : Time) :
    (addToSetReadBy m u t).id = m.id := by
  unfold addToSetReadBy; split <;> rfl

theorem addToSetReadBy_chatId (m : Message) (u : UserId) (t : Time) :
    (addToSetReadBy m u t).chatId = m.chatId := by
  unfold addToSetReadBy; split <;> rfl

theorem addToSetReadBy_sender (m : Message) (u : UserId) (t : Time) :
    (addToSetReadBy m u t).sender = m.sender := by
  unfold addToSetReadBy; split <;> rfl

theorem resetUnreadCount_id (c : Chat) (u : UserId) :
    (c.resetUnreadCount u).id = c.id := rfl

theorem resetUnreadCount_idem (c : Chat) (u : UserId) :
    (c.resetUnreadCount u).resetUnreadCount u = c.resetUnreadCount u := by
  unfold Chat.resetUnreadCount
  simp [assocSet_assocSet]

theorem find?_update_id (f : Chat → Chat) (hf : ∀ c, (f c).id = c.id) (l : List Chat)
    (cid : ChatId) :
    ((l.map (fun c => if c.id == cid then f c else c)).find? (fun c => c.id == cid)) =
      (l.find? (fun c => c.id == cid)).map f := by
  induction l with
  | nil => rfl
  | cons c rest ih =>
    by_cases h : c.id = cid
    · rw [List.map_cons, if_pos (by simp [h])]
      rw [List.find?_cons_of_pos _ (by simp [hf, h])]
      rw [List.find?_cons_of_pos _ (by simp [h])]
      rfl
    · rw [List.map_cons, if_neg (by simp [h])]
      rw [List.find?_cons_of_neg _ (by simp [h]), List.find?_cons_of_neg _ (by simp [h])]
      exact ih

theorem markRead_success (s : ServerState) (conn : ConnId) (userId : UserId)
    (chatId : ChatId) (ids : List MsgId) (now : Time) (c : Chat)
    (hc : findChat s chatId = some c) (hp : userId ∈ c.participants) :
    ((markRead s conn userId chatId ids now).1.chats =
        s.chats.map (fun c => if c.id == chatId then c.resetUnreadCount userId else c)) ∧
    ((markRead s conn userId chatId ids now).1.messages =
        s.messages.map (fun m =>
          if m.id ∈ ids ∧ m.chatId = chatId then addToSetReadBy m userId now else m)) := by
  constructor <;> simp [markRead, hc, hp]

/-- C7: `mark-read` is idempotent at the level of the data model: applying
the same `messageIds` twice (at any two timestamps) yields the same chat
documents — hence the same final unread counters — and, for every message,
the same id, chat, sender and the same readers (for every user `v`,
whether `v` has read it) as applying it once. -/
theorem markRead_idempotent (s : ServerState) (conn : ConnId) (userId : UserId)
    (chatId : ChatId) (ids : List MsgId) (t1 t2 : Time) (v : UserId) :
    ((markRead (markRead s conn userId chatId ids t1).1 conn userId chatId
        ids t2).1.chats = (markRead s conn userId chatId ids t1).1.chats) ∧
    ((markRead (markRead s conn userId chatId ids t1).1 conn userId chatId
        ids t2).1.messages.map (fun m => (m.id, m.chatId, m.sender, hasRead m v)) =
      (markRead s conn userId chatId ids t1).1.messages.map
        (fun m => (m.id, m.chatId, m.sender, hasRead m v))) := by
  cases hc : findChat s chatId with
  | none =>
    have e1 : (markRead s conn userId chatId ids t1).1 = s := by
      simp [markRead, hc]
    have e2 : (markRead s conn userId chatId ids t2).1 = s := by
      simp [markRead, hc]
    rw [e1, e2]
    exact ⟨rfl, rfl⟩
  | some c =>
    by_cases hp : userId ∈ c.participants
    · obtain ⟨h1chats, h1msgs⟩ := markRead_success s conn userId chatId ids t1 c hc hp
      have hfind : findChat (markRead s conn userId chatId ids t1).1 chatId =
          some (c.resetUnreadCount userId) := by
        show ((markRead s conn userId chatId ids t1).1.chats.find?
          (fun c => c.id == chatId)) = _
        rw [h1chats, find?_update_id (fun c => c.resetUnreadCount userId) (fun c => rfl)]
        unfold findChat at hc
        rw [hc]
        rfl
      have hp2 : userId ∈ (c.resetUnreadCount userId).participants := hp
      obtain ⟨h2chats, h2msgs⟩ := markRead_success (markRead s conn userId chatId ids t1).1
        conn userId chatId ids t2 (c.resetUnreadCount userId) hfind hp2
      constructor
      · rw [h2chats, h1chats]
        simp only [List.map_map]
        apply List.map_congr_left
        intro a _
        simp only [Function.comp]
        by_cases h : a.id = chatId
        · simp [h, resetUnreadCount_id, resetUnreadCount_idem]
        · simp [h]
      · rw [h2msgs, h1msgs]
        simp only [List.map_map]
        apply List.map_congr_left
        intro m _
        simp only [Function.comp]
        by_cases hcond : m.id ∈ ids ∧ m.chatId = chatId
        · have hcond' : (addToSetReadBy m userId t1).id ∈ ids ∧
              (addToSetReadBy m userId t1).chatId = chatId := by
            rw [addToSetReadBy_id, addToSetReadBy_chatId]
            exact hcond
          rw [if_pos hcond, if_pos hcond']
          simp [addToSetReadBy_id, addToSetReadBy_chatId, addToSetReadBy_sender,
            hasRead_addToSetReadBy, Bool.or_assoc]
        · rw [if_neg hcond, if_neg hcond]
    · have e1 : (markRead s conn userId chatId ids t1).1 = s := by
        simp [markRead, hc, hp]
      have e2 : (markRead s conn userId chatId ids t2).1 = s := by
        simp [markRead, hc, hp]
      rw [e1, e2]
      exact ⟨rfl, rfl⟩

end Textsy

namespace Textsy

theorem updateUnreadCount_get_one (c : Chat) (p v : UserId) :
    assocGet 0 (c.updateUnreadCount p 1).unreadCounts v =
      if v = p then assocGet 0 c.unreadCounts v + 1 else assocGet 0 c.unreadCounts v := by
  unfold Chat.updateUnreadCount
  show assocGet 0 (assocSet c.unreadCounts p _) v = _
  rw [assocGet_assocSet]
  by_cases h : v = p
  · rw [if_pos h, if_pos h]
    subst h
    omega
  · rw [if_neg h, if_neg h]

theorem bumpStep_participants (u : UserId) (ch : Chat) (p : UserId) :
    (bumpStep u ch p).participants = ch.participants := by
  unfold bumpStep; split <;> rfl

theorem bumpStep_id (u : UserId) (ch : Chat) (p : UserId) :
    (bumpStep u ch p).id = ch.id := by
  unfold bumpStep; split <;> rfl

theorem bumpStep_get (u : UserId) (ch : Chat) (p v : UserId) :
    assocGet 0 (bumpStep u ch p).unreadCounts v =
      if v = p ∧ p ≠ u then assocGet 0 ch.unreadCounts v + 1
      else assocGet 0 ch.unreadCounts v := by
  unfold bumpStep
  by_cases hpu : p = u
  · rw [if_pos (by simp [hpu]), if_neg (by tauto)]
  · rw [if_neg (by simp [hpu]), updateUnreadCount_get_one]
    by_cases hvp : v = p
    · rw [if_pos hvp, if_pos ⟨hvp, hpu⟩]
    · rw [if_neg hvp, if_neg (by tauto)]

theorem foldl_bumpStep_participants (u : UserId) (l : List UserId) :
    ∀ ch : Chat, (l.foldl (bumpStep u) ch).participants = ch.participants := by
  induction l with
  | nil => intro ch; rfl
  | cons p rest ih =>
    intro ch
    rw [List.foldl_cons, ih, bumpStep_participants]

theorem foldl_bumpStep_id (u : UserId) (l : List UserId) :
    ∀ ch : Chat, (l.foldl (bumpStep u) ch).id = ch.id := by
  induction l with
  | nil => intro ch; rfl
  | cons p rest ih =>
    intro ch
    rw [List.foldl_cons, ih, bumpStep_id]

theorem foldl_bumpStep_get (u v : UserId) (l : List UserId) :
    l.Nodup → ∀ ch : Chat,
      assocGet 0 (l.foldl (bumpStep u) ch).unreadCounts v =
        if v ∈ l ∧ v ≠ u then assocGet 0 ch.unreadCounts v + 1
        else assocGet 0 ch.unreadCounts v := by
  induction l with
  | nil => intro _ ch; simp
  | cons p rest ih =>
    intro hnd ch
    rw [List.nodup_cons] at hnd
    rw [List.foldl_cons, ih hnd.2 (bumpStep u ch p), bumpStep_get]
    by_cases hv : v = p
    · subst hv
      have hnr : v ∉ rest := hnd.1
      by_cases hvu : v = u
      · simp [hvu, hnr]
      · simp [hvu, hnr, List.mem_cons]
    · by_cases hvr : v ∈ rest <;> by_cases hvu : v = u <;>
        simp [hv, hvr, hvu, List.mem_cons] <;> exact fun h => h.symm

theorem bumpUnreads_participants (u : UserId) (mid : MsgId) (c : Chat) :
    (bumpUnreads u mid c).participants = c.participants := by
  unfold bumpUnreads
  rw [foldl_bumpStep_participants]

theorem bumpUnreads_id (u : UserId) (mid : MsgId) (c : Chat) :
    (bumpUnreads u mid c).id = c.id := by
  unfold bumpUnreads
  rw [foldl_bumpStep_id]

theorem bumpUnreads_get (u v : UserId) (mid : MsgId) (c : Chat)
    (hnd : c.participants.Nodup) :
    assocGet 0 (bumpUnreads u mid c).unreadCounts v =
      if v ∈ c.participants ∧ v ≠ u then assocGet 0 c.unreadCounts v + 1
      else assocGet 0 c.unreadCounts v := by
  unfold bumpUnreads
  exact foldl_bumpStep_get u v c.participants hnd _

theorem sendMessage_success (s : ServerState) (conn : ConnId) (userId : UserId)
    (chatId : ChatId) (content : String) (c : Chat)
    (hc : findChat s chatId = some c) (hp : userId ∈ c.participants)
    (hv : contentValid content = true) :
    ((sendMessage s conn userId chatId content).1.chats =
        s.chats.map (fun c => if c.id == chatId then
          bumpUnreads userId s.nextMsgId c else c)) ∧
    ((sendMessage s conn userId chatId content).1.messages =
        s.messages ++ [mkMessage s userId chatId content]) := by
  refine ⟨?_, ?_⟩ <;> (simp only [sendMessage, hc, if_pos hp, hv, if_true]; try rfl)

end Textsy

namespace Textsy

theorem msgsUnread_append (a b : List Message) (cid : ChatId) (v : UserId) :
    msgsUnread (a ++ b) cid v = msgsUnread a cid v + msgsUnread b cid v := by
  unfold msgsUnread
  rw [List.filter_append, List.length_append]

theorem msgsUnread_single_mk (s : ServerState) (userId : UserId) (chatId : ChatId)
    (content : String) (cid : ChatId) (v : UserId) :
    msgsUnread [mkMessage s userId chatId content] cid v =
      if chatId = cid ∧ userId ≠ v then 1 else 0 := by
  unfold msgsUnread mkMessage hasRead
  by_cases h1 : chatId = cid <;> by_cases h2 : userId = v <;>
    simp [h1, h2, List.filter_singleton]

theorem msgsUnread_map_mark_ne (msgs : List Message) (ids : List MsgId)
    (userId : UserId) (now : Time) (chatId cid : ChatId) (v : UserId)
    (hvu : v ≠ userId) :
    msgsUnread (msgs.map (fun m =>
        if m.id ∈ ids ∧ m.chatId = chatId then addToSetReadBy m userId now else m))
      cid v = msgsUnread msgs cid v := by
  unfold msgsUnread
  rw [List.filter_map, List.length_map]
  congr 1
  apply List.filter_congr
  intro m _
  simp only [Function.comp]
  by_cases hcond : m.id ∈ ids ∧ m.chatId = chatId
  · rw [if_pos hcond]
    have huv : (userId == v) = false := beq_eq_false_iff_ne.mpr (Ne.symm hvu)
    simp [addToSetReadBy_chatId, addToSetReadBy_sender, hasRead_addToSetReadBy, huv]
  · rw [if_neg hcond]

theorem msgsUnread_map_mark_other (msgs : List Message) (ids : List MsgId)
    (userId : UserId) (now : Time) (chatId cid : ChatId) (v : UserId)
    (hcid : cid ≠ chatId) :
    msgsUnread (msgs.map (fun m =>
        if m.id ∈ ids ∧ m.chatId = chatId then addToSetReadBy m userId now else m))
      cid v = msgsUnread msgs cid v := by
  unfold msgsUnread
  rw [List.filter_map, List.length_map]
  congr 1
  apply List.filter_congr
  intro m _
  simp only [Function.comp]
  by_cases hcond : m.id ∈ ids ∧ m.chatId = chatId
  · rw [if_pos hcond]
    have hch : (m.chatId == cid) = false := by
      rw [hcond.2]
      exact beq_eq_false_iff_ne.mpr (Ne.symm hcid)
    simp [addToSetReadBy_chatId, hch]
  · rw [if_neg hcond]

theorem msgsUnread_map_mark_zero (msgs : List Message) (ids : List MsgId)
    (userId : UserId) (now : Time) (chatId : ChatId)
    (hfull : ∀ m ∈ msgs, m.chatId = chatId → m.sender ≠ userId →
        hasRead m userId = false → m.id ∈ ids) :
    msgsUnread (msgs.map (fun m =>
        if m.id ∈ ids ∧ m.chatId = chatId then addToSetReadBy m userId now else m))
      chatId userId = 0 := by
  unfold msgsUnread
  rw [List.length_eq_zero, List.filter_eq_nil_iff]
  intro m' hm' hpm'
  rw [List.mem_map] at hm'
  obtain ⟨m, hm, rfl⟩ := hm'
  by_cases hcond : m.id ∈ ids ∧ m.chatId = chatId
  · rw [if_pos hcond] at hpm'
    simp [hasRead_addToSetReadBy] at hpm'
  · rw [if_neg hcond] at hpm'
    simp only [Bool.and_eq_true, Bool.not_eq_true', beq_iff_eq, beq_eq_false_iff_ne,
      ne_eq] at hpm'
    obtain ⟨⟨hch, hs⟩, hr⟩ := hpm'
    exact hcond ⟨hfull m hm hch hs hr, hch⟩

theorem unreadInv_markRead (s : ServerState) (conn : ConnId) (userId : UserId)
    (chatId : ChatId) (ids : List MsgId) (now : Time)
    (hfull : ∀ m ∈ s.messages, m.chatId = chatId → m.sender ≠ userId →
        hasRead m userId = false → m.id ∈ ids)
    (hinv : UnreadInv s) : UnreadInv (markRead s conn userId chatId ids now).1 := by
  cases hc : findChat s chatId with
  | none =>
    rw [show (markRead s conn userId chatId ids now).1 = s by simp [markRead, hc]]
    exact hinv
  | some c =>
    by_cases hp : userId ∈ c.participants
    · obtain ⟨hchats, hmsgs⟩ := markRead_success s conn userId chatId ids now c hc hp
      intro c' hc' v hvmem
      rw [hchats, List.mem_map] at hc'
      obtain ⟨c0, hc0, rfl⟩ := hc'
      unfold countUnread
      rw [hmsgs]
      by_cases hid : c0.id = chatId
      · rw [if_pos (by simp [hid])] at hvmem ⊢
        have hvm : v ∈ c0.participants := hvmem
        rw [resetUnreadCount_id, hid]
        show assocGet 0 (assocSet c0.unreadCounts userId 0) v = _
        rw [assocGet_assocSet]
        by_cases hvu : v = userId
        · rw [if_pos hvu]
          subst hvu
          exact (msgsUnread_map_mark_zero s.messages ids v now chatId hfull).symm
        · rw [if_neg hvu]
          rw [msgsUnread_map_mark_ne s.messages ids userId now chatId chatId v hvu]
          rw [← hid]
          exact hinv c0 hc0 v hvm
      · rw [if_neg (by simp [hid])] at hvmem ⊢
        rw [msgsUnread_map_mark_other s.messages ids userId now chatId c0.id v hid]
        exact hinv c0 hc0 v hvmem
    · rw [show (markRead s conn userId chatId ids now).1 = s by simp [markRead, hc, hp]]
      exact hinv

theorem unreadInv_sendMessage (s : ServerState) (conn : ConnId) (userId : UserId)
    (chatId : ChatId) (content : String) (hwf : WFChats s) (hinv : UnreadInv s) :
    UnreadInv (sendMessage s conn userId chatId content).1 := by
  cases hc : findChat s chatId with
  | none =>
    rw [show (sendMessage s conn userId chatId content).1 = s by simp [sendMessage, hc]]
    exact hinv
  | some c =>
    by_cases hp : userId ∈ c.participants
    · by_cases hv : contentValid content = true
      · obtain ⟨hchats, hmsgs⟩ := sendMessage_success s conn userId chatId content c hc hp hv
        intro c' hc' v hvmem
        rw [hchats, List.mem_map] at hc'
        obtain ⟨c0, hc0, rfl⟩ := hc'
        unfold countUnread
        rw [hmsgs]
        by_cases hid : c0.id = chatId
        · rw [if_pos (by simp [hid])] at hvmem ⊢
          rw [bumpUnreads_participants] at hvmem
          rw [bumpUnreads_get userId v s.nextMsgId c0 (hwf c0 hc0), bumpUnreads_id]
          rw [msgsUnread_append, msgsUnread_single_mk]
          by_cases hvu : v = userId
          · rw [if_neg (by tauto), if_neg (by tauto)]
            exact hinv c0 hc0 v hvmem
          · rw [if_pos ⟨hvmem, hvu⟩,
              if_pos ⟨by rw [hid], fun h => hvu h.symm⟩]
            rw [hinv c0 hc0 v hvmem]
            rfl
        · rw [if_neg (by simp [hid])] at hvmem ⊢
          rw [msgsUnread_append, msgsUnread_single_mk]
          rw [if_neg (by tauto)]
          rw [hinv c0 hc0 v hvmem]
          rfl
      · rw [show (sendMessage s conn userId chatId content).1 = s by
          simp [sendMessage, hc, hp, hv]]
        exact hinv
    · rw [show (sendMessage s conn userId chatId content).1 = s by
        simp [sendMessage, hc, hp]]
      exact hinv

end Textsy

namespace Textsy

theorem wfChats_map_update (l : List Chat) (cid : ChatId) (f : Chat → Chat)
    (hf : ∀ c, (f c).participants = c.participants)
    (hwf : ∀ c ∈ l, c.participants.Nodup) :
    ∀ c' ∈ l.map (fun c => if c.id == cid then f c else c), c'.participants.Nodup := by
  intro c' hc'
  rw [List.mem_map] at hc'
  obtain ⟨c0, hc0, rfl⟩ := hc'
  by_cases hid : c0.id = cid
  · rw [if_pos (by simp [hid]), hf]
    exact hwf c0 hc0
  · rw [if_neg (by simp [hid])]
    exact hwf c0 hc0

theorem wfChats_applyOp (s : ServerState) (op : Op) (hwf : WFChats s) :
    WFChats (applyOp s op) := by
  cases op with
  | send conn userId chatId content =>
    cases hc : findChat s chatId with
    | none =>
      rw [show applyOp s (Op.send conn userId chatId content) = s by
        simp [applyOp, sendMessage, hc]]
      exact hwf
    | some c =>
      by_cases hp : userId ∈ c.participants
      · by_cases hv : contentValid content = true
        · have hchats := (sendMessage_success s conn userId chatId content c hc hp hv).1
          intro c' hc'
          rw [show (applyOp s (Op.send conn userId chatId content)).chats =
              (sendMessage s conn userId chatId content).1.chats from rfl, hchats] at hc'
          exact wfChats_map_update s.chats chatId _
            (fun c => bumpUnreads_participants userId s.nextMsgId c) hwf c' hc'
        · rw [show applyOp s (Op.send conn userId chatId content) = s by
            simp [applyOp, sendMessage, hc, hp, hv]]
          exact hwf
      · rw [show applyOp s (Op.send conn userId chatId content) = s by
          simp [applyOp, sendMessage, hc, hp]]
        exact hwf
  | mark conn userId chatId ids now =>
    cases hc : findChat s chatId with
    | none =>
      rw [show applyOp s (Op.mark conn userId chatId ids now) = s by
        simp [applyOp, markRead, hc]]
      exact hwf
    | some c =>
      by_cases hp : userId ∈ c.participants
      · have hchats := (markRead_success s conn userId chatId ids now c hc hp).1
        intro c' hc'
        rw [show (applyOp s (Op.mark conn userId chatId ids now)).chats =
            (markRead s conn userId chatId ids now).1.chats from rfl, hchats] at hc'
        exact wfChats_map_update s.chats chatId
          (fun c => c.resetUnreadCount userId) (fun c => rfl) hwf c' hc'
      · rw [show applyOp s (Op.mark conn userId chatId ids now) = s by
          simp [applyOp, markRead, hc, hp]]
        exact hwf

theorem unreadInv_applyOp (s : ServerState) (op : Op) (hwf : WFChats s)
    (hinv : UnreadInv s) (hfb : FullBatch s op) : UnreadInv (applyOp s op) := by
  cases op with
  | send conn userId chatId content =>
    exact unreadInv_sendMessage s conn userId chatId content hwf hinv
  | mark conn userId chatId ids now =>
    exact unreadInv_markRead s conn userId chatId ids now hfb hinv

/-- C1 (amended): the quiescent unread-count invariant holds after any
finite sequence of send and mark-read operations provided each mark-read is
a full batch — its `messageIds` cover every message of the chat then unread
by the caller. (Because the handler resets the caller's counter to zero no
matter which ids were supplied, the invariant as originally stated breaks
on partial batches.) Starting from any state whose chats have
duplicate-free participant lists and which satisfies the invariant, every
such run preserves it: for every chat and every participant the stored
unread counter equals the number of messages of that chat with a different
sender that the participant has not read. -/
theorem unread_invariant_full_batches (ops : List Op) :
    ∀ s : ServerState, WFChats s → UnreadInv s → FullBatches s ops →
      UnreadInv (applyOps s ops) := by
  induction ops with
  | nil => intro s _ hinv _; exact hinv
  | cons op rest ih =>
    intro s hwf hinv hfb
    exact ih (applyOp s op) (wfChats_applyOp s op hwf)
      (unreadInv_applyOp s op hwf hinv hfb.1) hfb.2

/-- C1 witness: a run where user 0 sends and user 1 marks the full backlog
read keeps the invariant. -/
theorem unread_invariant_full_batches_witness :
    UnreadInv (applyOps exState exOpsFullRead) :=
  unread_invariant_full_batches exOpsFullRead exState (by decide) (by decide) (by decide)

/-- C1 counterexample: the invariant as stated fails for partial batches:
from a valid state, user 0 sends two messages and user 1 marks only the
first one read; the handler resets user 1's counter to zero although one
message of the chat (sender 0, not read by 1) remains — `unreadCount[1]`
no longer equals the count required by the claim. -/
theorem unread_invariant_counterexample :
    UnreadInv exState ∧ WFChats exState ∧
    ¬ UnreadInv (applyOps exState exOpsPartialRead) ∧
    countUnread (applyOps exState exOpsPartialRead) 0 1 = 1 := by
  decide

end Textsy
